import Mathlib

/-!
Verification of the ai_chat_console conversational orchestration core.

This file gives a shallow embedding, in Lean 4, of the parts of the
`ai_chat_console` Python repository that its specification makes claims
about: the message data model (`providers/base.py`), conversation
history trimming (`core/conversation.py`), the chat engine's send and
stream turns (`core/chat.py`), the tool executor (`tools/executor.py`),
session serialization (`core/session.py`), and the unimplemented
OpenRouter provider (`providers/openrouter.py`).

Python dictionaries keyed by insertion order are modelled as association
lists; Python `Optional` values as `Option`; exceptions as `Except`;
`async` control flow is sequential in the source and is modelled by
ordinary sequencing.  Python's negative list slicing, whose exact
semantics decides the history-trimming claims, is modelled precisely by
`pySliceFrom`.
-/

/-- Message role enumeration, from `MessageRole` in `providers/base.py`. -/
inductive MessageRole where
  | system
  | user
  | assistant
  | tool
deriving DecidableEq, Repr

/-- A JSON-like value, used for tool arguments and tool results.  The
source passes these around as untyped Python values; the claims only
need strings, integers and booleans. -/
inductive JsonVal where
  | str (s : String)
  | num (n : Int)
  | bool (b : Bool)
deriving DecidableEq, Repr

/-- A JSON object / Python dict with insertion order, as an association list. -/
abbrev JsonObj := List (String × JsonVal)

/-- A tool-call record `{id, name, arguments}`, from `ToolCall.to_dict`
in `providers/base.py` and the raw dicts used in `core/chat.py`. -/
structure ToolCallRec where
  id : String
  name : String
  arguments : JsonObj
deriving DecidableEq, Repr

/-- A chat message, from `Message` in `providers/base.py`. -/
structure Message where
  role : MessageRole
  content : String
  tool_calls : Option (List ToolCallRec) := none
  tool_call_id : Option String := none
deriving DecidableEq, Repr

/-- Python's `l[start:]` slice for an `Int` start index: a non-negative
start drops that many elements from the front; a negative start keeps
the last `-start` elements (clamped to the whole list). -/
def pySliceFrom (start : Int) (l : List α) : List α :=
  if 0 ≤ start then l.drop start.toNat
  else l.drop (l.length - (-start).toNat)

/-- Predicate `msg.role == MessageRole.SYSTEM` from `_trim_history`. -/
def isSystemMsg (m : Message) : Bool := decide (m.role = MessageRole.system)

/-- `Conversation._trim_history` from `core/conversation.py`: if the
list is longer than `max_history`, keep all system messages plus
`other_msgs[-(max_history - len(system_msgs)):]`, system messages
first. -/
def trimHistory (max_history : Nat) (messages : List Message) : List Message :=
  if messages.length > max_history then
    let system_msgs := messages.filter isSystemMsg
    let other_msgs := messages.filter (fun m => ! isSystemMsg m)
    let recent_msgs := pySliceFrom (-((max_history : Int) - system_msgs.length)) other_msgs
    system_msgs ++ recent_msgs
  else messages

/-- `Conversation.add_message`: append then trim. -/
def addMessage (max_history : Nat) (messages : List Message) (m : Message) : List Message :=
  trimHistory max_history (messages ++ [m])

/-- A system message with the given content. -/
def mkSys (s : String) : Message := { role := MessageRole.system, content := s }

/-- A user message with the given content. -/
def mkUser (s : String) : Message := { role := MessageRole.user, content := s }

theorem pySliceFrom_length_le_of_neg (start : Int) (l : List α) (h : start < 0) :
    (pySliceFrom start l).length ≤ (-start).toNat := by
  unfold pySliceFrom
  rw [if_neg (by omega)]
  rw [List.length_drop]
  omega

theorem mem_of_mem_pySliceFrom {start : Int} {l : List α} {a : α}
    (h : a ∈ pySliceFrom start l) : a ∈ l := by
  unfold pySliceFrom at h
  split at h <;> exact List.mem_of_mem_drop h

/-- Trimming preserves exactly the system messages. -/
theorem trimHistory_filter_system (mh : Nat) (l : List Message) :
    (trimHistory mh l).filter isSystemMsg = l.filter isSystemMsg := by
  unfold trimHistory
  split
  · rw [List.filter_append]
    have h1 : (l.filter isSystemMsg).filter isSystemMsg = l.filter isSystemMsg :=
      List.filter_eq_self.mpr (fun a ha => List.of_mem_filter ha)
    have h2 : (pySliceFrom (-((mh : Int) - (l.filter isSystemMsg).length))
        (l.filter (fun m => ! isSystemMsg m))).filter isSystemMsg = [] := by
      apply List.filter_eq_nil_iff.mpr
      intro a ha
      have := mem_of_mem_pySliceFrom ha
      have hb := List.of_mem_filter this
      simp only [Bool.not_eq_true'] at hb
      simp [hb]
    rw [h1, h2, List.append_nil]
  · rfl

/-- If strictly fewer system messages than the bound, trimming yields at
most `max_history` messages (when the untrimmed list is also within the
bound, it is returned unchanged). -/
theorem trimHistory_length_le (mh : Nat) (l : List Message)
    (h : (l.filter isSystemMsg).length < mh) :
    (trimHistory mh l).length ≤ max mh l.length := by
  unfold trimHistory
  split
  · rw [List.length_append]
    have hs : (l.filter isSystemMsg).length < mh := h
    have hneg : (-((mh : Int) - (l.filter isSystemMsg).length)) < 0 := by omega
    have hb := pySliceFrom_length_le_of_neg (-((mh : Int) - (l.filter isSystemMsg).length))
      (l.filter (fun m => ! isSystemMsg m)) hneg
    have : ((-(-((mh : Int) - (l.filter isSystemMsg).length))).toNat)
        = mh - (l.filter isSystemMsg).length := by omega
    rw [this] at hb
    omega
  · omega

/-- Stronger form used in the induction: under the strict bound the
trimmed list length is at most `max_history` whenever the input came
from a single append to a list already within the bound. -/
theorem trimHistory_length_le' (mh : Nat) (l : List Message)
    (h : (l.filter isSystemMsg).length < mh) (hl : l.length ≤ mh + 1) :
    (trimHistory mh l).length ≤ mh := by
  unfold trimHistory
  split
  · rw [List.length_append]
    have hneg : (-((mh : Int) - (l.filter isSystemMsg).length)) < 0 := by omega
    have hb := pySliceFrom_length_le_of_neg (-((mh : Int) - (l.filter isSystemMsg).length))
      (l.filter (fun m => ! isSystemMsg m)) hneg
    have : ((-(-((mh : Int) - (l.filter isSystemMsg).length))).toNat)
        = mh - (l.filter isSystemMsg).length := by omega
    rw [this] at hb
    omega
  · omega

/-- System messages survive any sequence of appends: folding
`add_message` over a batch of appended messages keeps exactly the
system messages of the accumulator followed by those of the batch. -/
theorem foldl_addMessage_filter_system (mh : Nat) (appended : List Message) :
    ∀ acc : List Message,
      (appended.foldl (addMessage mh) acc).filter isSystemMsg
        = acc.filter isSystemMsg ++ appended.filter isSystemMsg := by
  induction appended with
  | nil => intro acc; simp
  | cons m rest ih =>
    intro acc
    rw [List.foldl_cons, ih (addMessage mh acc m)]
    unfold addMessage
    rw [trimHistory_filter_system, List.filter_append]
    cases hm : isSystemMsg m <;> simp [hm]

/-- Length bound preserved by a batch of appends, under the strict
system-count bound. -/
theorem foldl_addMessage_length_le (mh : Nat) (appended : List Message) :
    ∀ acc : List Message,
      (acc.filter isSystemMsg).length + (appended.filter isSystemMsg).length < mh →
      acc.length ≤ mh →
      (appended.foldl (addMessage mh) acc).length ≤ mh := by
  induction appended with
  | nil => intro acc h hacc; simpa using hacc
  | cons m rest ih =>
    intro acc h hacc
    rw [List.foldl_cons]
    have hfs : ((acc ++ [m]).filter isSystemMsg).length < mh := by
      rw [List.filter_append]
      rw [List.length_append]
      have hr : ((m :: rest).filter isSystemMsg).length
          = ([m].filter isSystemMsg).length + (rest.filter isSystemMsg).length := by
        cases hsm : isSystemMsg m
        · simp [hsm]
        · simp only [List.filter_cons, hsm, if_pos]
          simp
          omega
      omega
    have hlen : (addMessage mh acc m).length ≤ mh := by
      unfold addMessage
      apply trimHistory_length_le' mh (acc ++ [m]) hfs
      rw [List.length_append]
      simpa using Nat.add_le_add_right hacc 1
    apply ih (addMessage mh acc m) _ hlen
    have hfilter : ((addMessage mh acc m).filter isSystemMsg).length
        = ((acc ++ [m]).filter isSystemMsg).length := by
      unfold addMessage
      rw [trimHistory_filter_system]
    rw [hfilter]
    have hr : ((m :: rest).filter isSystemMsg).length
        = ([m].filter isSystemMsg).length + (rest.filter isSystemMsg).length := by
      cases hsm : isSystemMsg m
      · simp [hsm]
      · simp only [List.filter_cons, hsm, if_pos]
        simp
        omega
    rw [List.filter_append, List.length_append]
    omega

/-- C2 (amended): for every sequence of messages appended via
`add_message` starting from an empty conversation, whenever
`max_history` is STRICTLY greater than the number of system-role
messages appended, the resulting message list contains exactly the
system-role messages appended so far (in order) and its total length is
at most `max_history`.  (At `max_history == count(system)` the claim
fails: the Python slice `[-0:]` keeps every non-system message, see the
counterexample.) -/
theorem trim_invariant_system_kept_and_bounded (mh : Nat) (appended : List Message)
    (h : (appended.filter isSystemMsg).length < mh) :
    (appended.foldl (addMessage mh) []).filter isSystemMsg = appended.filter isSystemMsg ∧
    (appended.foldl (addMessage mh) []).length ≤ mh := by
  constructor
  · simpa using foldl_addMessage_filter_system mh appended []
  · apply foldl_addMessage_length_le mh appended []
    · simpa using h
    · exact Nat.zero_le mh

/-- Witness for C2: with `max_history = 3` and four appended messages
(one system), every system message is kept and the bound holds. -/
theorem trim_invariant_system_kept_and_bounded_witness :
    (([mkSys "s", mkUser "a", mkUser "b", mkUser "c"].filter isSystemMsg).length < 3) ∧
    (([mkSys "s", mkUser "a", mkUser "b", mkUser "c"].foldl (addMessage 3) []).filter isSystemMsg
        = [mkSys "s", mkUser "a", mkUser "b", mkUser "c"].filter isSystemMsg ∧
      ([mkSys "s", mkUser "a", mkUser "b", mkUser "c"].foldl (addMessage 3) []).length ≤ 3) :=
  ⟨by decide,
   trim_invariant_system_kept_and_bounded 3 [mkSys "s", mkUser "a", mkUser "b", mkUser "c"]
     (by decide)⟩

/-- Counterexample for C2 as stated: with `max_history = 1` and the
appended sequence [system, user] we have `max_history >= count(system)`
(1 >= 1) yet after trimming the list has length 2 > 1, because the trim
slice is `other_msgs[-0:]`, which in Python keeps all non-system
messages. -/
theorem trim_invariant_cx :
    (([mkSys "s", mkUser "u"].filter isSystemMsg).length ≤ 1) ∧
    ¬ (([mkSys "s", mkUser "u"].foldl (addMessage 1) []).length ≤ 1) := by
  decide

/-- Failing input for C3.  Appending, with `max_history = 3`, in order:
u1, u2, s1, s2, s3, u3, s4 (s* system, u* user). -/
def c3Seq : List Message :=
  [mkUser "u1", mkUser "u2", mkSys "s1", mkSys "s2", mkSys "s3", mkUser "u3", mkSys "s4"]

/-- C3 evaluated at the failing input: after the sequence `c3Seq` with
`max_history = 3` the conversation holds four system messages (more
than `max_history`), yet the non-system slice was NOT clamped to empty:
the Python slice `other_msgs[-(3 - 4):]` is `other_msgs[1:]`, which
keeps the suffix `[u3]`, so the result is not system-messages-only. -/
theorem trim_oversystem_not_clamped :
    (3 < ((c3Seq.foldl (addMessage 3) []).filter isSystemMsg).length) ∧
    (c3Seq.foldl (addMessage 3) []
        = [mkSys "s1", mkSys "s2", mkSys "s3", mkSys "s4", mkUser "u3"]) ∧
    ¬ ((c3Seq.foldl (addMessage 3) []).filter (fun m => ! isSystemMsg m) = []) := by
  decide

/-- A tool execution result, from `ToolResult` in `tools/base.py`
(`metadata`, unused by the claims, is omitted; the untyped `result`
payload is modelled as an optional JSON value). -/
structure ToolResult where
  success : Bool
  result : Option JsonVal
  error : Option String := none
deriving DecidableEq, Repr

/-- Python `str()` applied to an optional JSON value (as in
`str(result.result)` in `core/chat.py`). -/
def pyJsonStr (v : Option JsonVal) : String :=
  match v with
  | none => "None"
  | some (JsonVal.str s) => s
  | some (JsonVal.num n) => toString n
  | some (JsonVal.bool b) => if b then "True" else "False"

/-- Python f-string rendering of an optional string (as in
`f"Error: {result.error}"`). -/
def pyStrOpt (s : Option String) : String :=
  match s with
  | none => "None"
  | some t => t

/-- How an awaited `tool.execute(**arguments)` call behaves, seen from
`ToolExecutor.execute`: it completes with a `ToolResult`, exceeds the
timeout (`asyncio.TimeoutError`), or raises some other exception with a
kind (`type(e).__name__`) and message. -/
inductive ToolRunOutcome where
  | completes (r : ToolResult)
  | timesOut
  | raises (kind msg : String)
deriving DecidableEq, Repr

/-- One entry of `ToolExecutor.execution_history` (wall-clock fields
`execution_time` and `timestamp`, which are real time, are omitted). -/
structure ExecutionRecord where
  tool_name : String
  arguments : JsonObj
  success : Bool
  error_type : Option String
  error_message : Option String
deriving DecidableEq, Repr

/-- `ToolExecutor._record_execution`: append the record, then keep only
the last 100 entries (`self.execution_history[-100:]`). -/
def recordExecution (history : List ExecutionRecord) (entry : ExecutionRecord) :
    List ExecutionRecord :=
  if (history ++ [entry]).length > 100 then pySliceFrom (-(100 : Int)) (history ++ [entry])
  else history ++ [entry]

/-- Effective timeout: Python `timeout = timeout or self.default_timeout`
(`0` and `None` both fall back to the default). -/
def effTimeout (default_timeout : Nat) (timeout : Option Nat) : Nat :=
  match timeout with
  | some t => if t = 0 then default_timeout else t
  | none => default_timeout

/-- `ToolExecutor.execute` from `tools/executor.py`: run the tool with a
timeout; a completed run returns the tool's own result; a timeout or any
other exception is converted into a failed `ToolResult` and recorded,
never re-raised. -/
def executorExecute (default_timeout : Nat) (history : List ExecutionRecord)
    (tool_name : String) (arguments : JsonObj) (timeout : Option Nat)
    (outcome : ToolRunOutcome) : ToolResult × List ExecutionRecord :=
  let eff := effTimeout default_timeout timeout
  match outcome with
  | ToolRunOutcome.completes r =>
      (r, recordExecution history
        { tool_name := tool_name, arguments := arguments, success := r.success,
          error_type := none,
          error_message := if r.success then none else r.error })
  | ToolRunOutcome.timesOut =>
      let msg := "Tool execution timed out after " ++ toString eff ++ " seconds"
      let failed : ToolResult := { success := false, result := none, error := some msg }
      (failed, recordExecution history
        { tool_name := tool_name, arguments := arguments, success := false,
          error_type := some "timeout", error_message := some msg })
  | ToolRunOutcome.raises kind m =>
      let msg := "Tool execution failed: " ++ m
      let failed : ToolResult := { success := false, result := none, error := some msg }
      (failed, recordExecution history
        { tool_name := tool_name, arguments := arguments, success := false,
          error_type := some kind, error_message := some msg })

/-- The last entry of the history after recording is the new record. -/
theorem recordExecution_getLast? (history : List ExecutionRecord) (entry : ExecutionRecord) :
    (recordExecution history entry).getLast? = some entry := by
  have hlast : (history ++ [entry]).getLast? = some entry := by
    simp [List.getLast?_append]
  unfold recordExecution
  split
  · rename_i hgt
    unfold pySliceFrom
    rw [if_neg (by norm_num)]
    rw [List.getLast?_eq_getElem?] at hlast ⊢
    rw [List.length_drop, List.getElem?_drop]
    rw [← hlast]
    congr 1
    simp only [neg_neg, Int.toNat_ofNat]
    omega
  · exact hlast

/-- C5: `ToolExecutor.execute` always returns a `ToolResult` and never
propagates an exception raised by the tool (the embedding is a total
function into `ToolResult × history`).  A timeout yields
`success = false` with an error message naming the effective timeout in
seconds; any other exception yields `success = false`, `result = None`,
an error message containing the exception's message, and the
exception's kind recorded in the execution-history entry. -/
theorem executor_never_throws (default_timeout : Nat) (history : List ExecutionRecord)
    (tool_name : String) (arguments : JsonObj) (timeout : Option Nat)
    (outcome : ToolRunOutcome) :
    (outcome = ToolRunOutcome.timesOut →
      (executorExecute default_timeout history tool_name arguments timeout outcome).1.success = false ∧
      (executorExecute default_timeout history tool_name arguments timeout outcome).1.error
        = some ("Tool execution timed out after "
            ++ toString (effTimeout default_timeout timeout) ++ " seconds")) ∧
    (∀ kind msg, outcome = ToolRunOutcome.raises kind msg →
      (executorExecute default_timeout history tool_name arguments timeout outcome).1.success = false ∧
      (executorExecute default_timeout history tool_name arguments timeout outcome).1.result = none ∧
      (executorExecute default_timeout history tool_name arguments timeout outcome).1.error
        = some ("Tool execution failed: " ++ msg) ∧
      (executorExecute default_timeout history tool_name arguments timeout outcome).2.getLast?
        = some { tool_name := tool_name, arguments := arguments, success := false,
                 error_type := some kind,
                 error_message := some ("Tool execution failed: " ++ msg) }) ∧
    (∀ r, outcome = ToolRunOutcome.completes r →
      (executorExecute default_timeout history tool_name arguments timeout outcome).1 = r) := by
  refine ⟨?_, ?_, ?_⟩
  · rintro rfl
    exact ⟨rfl, rfl⟩
  · rintro kind msg rfl
    refine ⟨rfl, rfl, rfl, ?_⟩
    exact recordExecution_getLast? history _
  · rintro r rfl
    rfl

/-- Witness for C5: the executor at a concrete timing-out call and a
concrete raising call. -/
theorem executor_never_throws_witness :
    ((executorExecute 30 [] "calculator" [] none ToolRunOutcome.timesOut).1.success = false ∧
     (executorExecute 30 [] "calculator" [] none ToolRunOutcome.timesOut).1.error
       = some ("Tool execution timed out after " ++ toString (effTimeout 30 none) ++ " seconds")) ∧
    ((executorExecute 30 [] "calculator" [] none
        (ToolRunOutcome.raises "ValueError" "bad input")).1.success = false ∧
     (executorExecute 30 [] "calculator" [] none
        (ToolRunOutcome.raises "ValueError" "bad input")).1.result = none ∧
     (executorExecute 30 [] "calculator" [] none
        (ToolRunOutcome.raises "ValueError" "bad input")).1.error
       = some ("Tool execution failed: " ++ "bad input") ∧
     (executorExecute 30 [] "calculator" [] none
        (ToolRunOutcome.raises "ValueError" "bad input")).2.getLast?
       = some { tool_name := "calculator", arguments := [], success := false,
                error_type := some "ValueError",
                error_message := some ("Tool execution failed: " ++ "bad input") }) :=
  ⟨(executor_never_throws 30 [] "calculator" [] none ToolRunOutcome.timesOut).1 rfl,
   (executor_never_throws 30 [] "calculator" [] none
      (ToolRunOutcome.raises "ValueError" "bad input")).2.1 "ValueError" "bad input" rfl⟩

/-- `ChatEngine._create_thinking_prompt`: the fixed template wrapped
around the user content. -/
def createThinkingPrompt (content : String) : String :=
  "Please think through this question step by step and provide your response in two distinct sections:\n\n**THINKING PROCESS:**\nFirst, show your step-by-step thinking process. Analyze the question carefully, consider different angles, break down the problem, and work through your reasoning. Be thorough in showing how you arrive at your conclusion.\n\n**FINAL ANSWER:**\nAfter your thinking process, provide your clear, direct answer to the user's question.\n\nUser's question: "
  ++ content
  ++ "\n\nPlease format your response exactly like this:\n\nTHINKING:\n[Your detailed thinking process here]\n\nRESPONSE:\n[Your final answer here]"

/-- Python `content.split(sep, 1)` when `sep in content`: the text
before the first occurrence and the text after it.  `none` when the
separator does not occur. -/
def pySplitOnce (sep content : String) : Option (String × String) :=
  match content.splitOn sep with
  | [] => none
  | [_] => none
  | p :: ps => some (p, String.intercalate sep ps)

/-- Marker cleanup applied to the thinking section in
`_parse_thinking_response`. -/
def stripThinkingMarkers (s : String) : String :=
  ((s.replace "THINKING:" "").replace "THINKING PROCESS:" "").trim

/-- `ChatEngine._parse_thinking_response`: split on the first separator
found (in priority order); if nothing was found, or both parts came out
empty, the whole content is the answer. -/
def parseThinkingResponse (content : String) : String × String :=
  let seps := ["RESPONSE:", "FINAL ANSWER:", "ANSWER:", "\n\n"]
  match seps.findSome? (fun sep =>
      (pySplitOnce sep content).map (fun pr => (stripThinkingMarkers pr.1, pr.2))) with
  | some pr => if pr.1 = "" ∧ pr.2 = "" then ("", content) else pr
  | none => ("", content)

/-- Provider response data for the non-streaming path: the dict
`{"content": ..., "tool_calls": ...}` (a missing / falsy `tool_calls`
key is the empty list; the `tool_results` key added by
`_handle_tool_calls` is not read anywhere and is omitted). -/
structure RespData where
  content : String
  tool_calls : List ToolCallRec := []
deriving DecidableEq, Repr

/-- `ChatResponse` from `core/chat.py` (`model` and `usage`, which the
claims do not mention, are omitted). -/
structure ChatResponseE where
  content : String
  tool_calls : Option (List ToolCallRec)
  thinking : Option String
deriving DecidableEq, Repr

/-- `ChatEngine._process_response` on non-streaming response data:
optionally split out the thinking section, and wrap the tool calls
(`None` when the list is empty). -/
def processResponse (response : RespData) (enable_thinking : Bool) : ChatResponseE :=
  let pr := if enable_thinking ∧ response.content ≠ ""
    then some (parseThinkingResponse response.content) else none
  { content := match pr with | some p => p.2 | none => response.content,
    tool_calls := if response.tool_calls = [] then none else some response.tool_calls,
    thinking := match pr with | some p => some p.1 | none => none }

/-- Content of a tool-result message:
`str(result.result) if result.success else f"Error: {result.error}"`. -/
def toolResultContent (r : ToolResult) : String :=
  if r.success then pyJsonStr r.result else "Error: " ++ pyStrOpt r.error

/-- The `tool`-role message appended for one tool call in
`_handle_tool_calls` (and in `stream_message`), given the executor's
result for that call.  `execRes name arguments` abstracts
`ToolExecutor.execute_by_name`, which always returns a `ToolResult`
(registry misses and tool exceptions are converted, never raised; see
`executorExecute`). -/
def toolResultMsg (execRes : String → JsonObj → ToolResult) (c : ToolCallRec) : Message :=
  { role := MessageRole.tool,
    content := toolResultContent (execRes c.name c.arguments),
    tool_call_id := some c.id }

/-- Observable events of one `send` turn, used to state ordering
guarantees: a tool execution, a message appended to the conversation,
and a provider call (`withTools` is whether the call offered tools). -/
inductive TurnEvent where
  | execTool (name : String) (arguments : JsonObj)
  | appendMsg (m : Message)
  | providerCall (withTools : Bool)
deriving DecidableEq, Repr

/-- The event trace generated by the tool-call loop of
`_handle_tool_calls`: for each call, in provider order, an execution
followed by the append of its tool-result message. -/
def toolCallEvents (execRes : String → JsonObj → ToolResult)
    (calls : List ToolCallRec) : List TurnEvent :=
  calls.flatMap (fun c =>
    [TurnEvent.execTool c.name c.arguments, TurnEvent.appendMsg (toolResultMsg execRes c)])

/-- Result of `_handle_tool_calls`: the updated conversation, the event
trace, the tool messages appended (in order), and either the follow-up
response data or the propagated provider exception. -/
structure HtcOutcome where
  conv : List Message
  events : List TurnEvent
  appended : List Message
  result : Except String RespData

/-- One iteration of the `for tool_call in tool_calls` loop in
`_handle_tool_calls`: execute the call, append the tool message. -/
def htcStep (mh : Nat) (execRes : String → JsonObj → ToolResult)
    (acc : List Message × List TurnEvent × List Message) (c : ToolCallRec) :
    List Message × List TurnEvent × List Message :=
  let m := toolResultMsg execRes c
  (addMessage mh acc.1 m,
   acc.2.1 ++ [TurnEvent.execTool c.name c.arguments, TurnEvent.appendMsg m],
   acc.2.2 ++ [m])

/-- `ChatEngine._handle_tool_calls` from `core/chat.py`: if the response
carries no tool calls it is returned unchanged; otherwise every call is
executed sequentially in order, one `tool`-role message per call is
appended (with `tool_call_id` set to the call's id), and then exactly
one follow-up `create_message` (non-tool) provider call is made, whose
outcome `followUp` either yields the final response data or raises. -/
def handleToolCalls (mh : Nat) (conv : List Message) (response : RespData)
    (execRes : String → JsonObj → ToolResult) (followUp : Except String String) :
    HtcOutcome :=
  if response.tool_calls = [] then
    { conv := conv, events := [], appended := [], result := Except.ok response }
  else
    let folded := response.tool_calls.foldl (htcStep mh execRes) (conv, [], [])
    let events := folded.2.1 ++ [TurnEvent.providerCall false]
    match followUp with
    | Except.error e =>
        { conv := folded.1, events := events, appended := folded.2.2,
          result := Except.error e }
    | Except.ok finalContent =>
        { conv := folded.1, events := events, appended := folded.2.2,
          result := Except.ok { content := finalContent, tool_calls := response.tool_calls } }

/-- Unfolding of the tool-call loop: the conversation is folded over the
appended tool messages, and the traces accumulate in order. -/
theorem htc_foldl_spec (mh : Nat) (execRes : String → JsonObj → ToolResult)
    (calls : List ToolCallRec) :
    ∀ (conv : List Message) (evs : List TurnEvent) (ap : List Message),
      calls.foldl (htcStep mh execRes) (conv, evs, ap)
        = ((calls.map (toolResultMsg execRes)).foldl (addMessage mh) conv,
           evs ++ toolCallEvents execRes calls,
           ap ++ calls.map (toolResultMsg execRes)) := by
  induction calls with
  | nil => intro conv evs ap; simp [toolCallEvents]
  | cons c rest ih =>
    intro conv evs ap
    rw [List.foldl_cons]
    rw [ih]
    simp [htcStep, toolCallEvents, List.flatMap_cons]

/-- The tool-call loop never emits a provider-call event. -/
theorem toolCallEvents_count_providerCall (execRes : String → JsonObj → ToolResult)
    (calls : List ToolCallRec) (b : Bool) :
    (toolCallEvents execRes calls).count (TurnEvent.providerCall b) = 0 := by
  induction calls with
  | nil => simp [toolCallEvents]
  | cons c rest ih =>
    simp [toolCallEvents, List.flatMap_cons, List.count_append] at ih ⊢
    exact ih

/-- C4: for a response carrying a non-empty list of tool calls,
`_handle_tool_calls` executes all of them sequentially in provider
order (a failing tool only changes the content of its tool message,
never the trace shape, since `execRes` is total), appends exactly one
`tool`-role message per call whose `tool_call_id` is that call's id,
and makes exactly one follow-up non-tool provider call, strictly after
all tool-result appends (it is the last event of the trace). -/
theorem handle_tool_calls_spec (mh : Nat) (conv : List Message) (response : RespData)
    (execRes : String → JsonObj → ToolResult) (followUp : Except String String)
    (hne : response.tool_calls ≠ []) :
    (handleToolCalls mh conv response execRes followUp).events
        = toolCallEvents execRes response.tool_calls ++ [TurnEvent.providerCall false] ∧
    (handleToolCalls mh conv response execRes followUp).appended
        = response.tool_calls.map (toolResultMsg execRes) ∧
    (∀ m ∈ (handleToolCalls mh conv response execRes followUp).appended,
        m.role = MessageRole.tool) ∧
    ((handleToolCalls mh conv response execRes followUp).appended.map Message.tool_call_id
        = response.tool_calls.map (fun c => some c.id)) ∧
    ((handleToolCalls mh conv response execRes followUp).events.count
        (TurnEvent.providerCall false) = 1) := by
  have hfold := htc_foldl_spec mh execRes response.tool_calls conv [] []
  have hout : (handleToolCalls mh conv response execRes followUp).events
        = toolCallEvents execRes response.tool_calls ++ [TurnEvent.providerCall false] ∧
      (handleToolCalls mh conv response execRes followUp).appended
        = response.tool_calls.map (toolResultMsg execRes) := by
    unfold handleToolCalls
    rw [if_neg hne]
    cases followUp <;> simp [hfold]
  refine ⟨hout.1, hout.2, ?_, ?_, ?_⟩
  · rw [hout.2]
    intro m hm
    obtain ⟨c, _, rfl⟩ := List.mem_map.mp hm
    rfl
  · rw [hout.2, List.map_map]
    rfl
  · rw [hout.1, List.count_append]
    rw [toolCallEvents_count_providerCall]
    simp

/-- Witness for C4 at a concrete two-call response, one call failing. -/
theorem handle_tool_calls_spec_witness :
    (handleToolCalls 50 [] { content := "", tool_calls := [⟨"a", "calc", []⟩, ⟨"b", "clock", []⟩] }
        (fun n _ => if n = "calc" then { success := true, result := some (JsonVal.num 3) }
                    else { success := false, result := none, error := some "boom" })
        (Except.ok "done")).appended.map Message.tool_call_id
      = [some "a", some "b"] ∧
    (handleToolCalls 50 [] { content := "", tool_calls := [⟨"a", "calc", []⟩, ⟨"b", "clock", []⟩] }
        (fun n _ => if n = "calc" then { success := true, result := some (JsonVal.num 3) }
                    else { success := false, result := none, error := some "boom" })
        (Except.ok "done")).events.count (TurnEvent.providerCall false) = 1 :=
  ⟨(handle_tool_calls_spec 50 []
      { content := "", tool_calls := [⟨"a", "calc", []⟩, ⟨"b", "clock", []⟩] }
      (fun n _ => if n = "calc" then { success := true, result := some (JsonVal.num 3) }
                  else { success := false, result := none, error := some "boom" })
      (Except.ok "done") (by decide)).2.2.2.1,
   (handle_tool_calls_spec 50 []
      { content := "", tool_calls := [⟨"a", "calc", []⟩, ⟨"b", "clock", []⟩] }
      (fun n _ => if n = "calc" then { success := true, result := some (JsonVal.num 3) }
                  else { success := false, result := none, error := some "boom" })
      (Except.ok "done") (by decide)).2.2.2.2⟩

/-- Python `list.pop()` on the conversation's message list: remove the
last element (`core/chat.py` uses this in the exception handlers with
the comment "Remove the user message if the request failed"). -/
def pyPop (l : List α) : List α := l.dropLast

/-- The assistant message appended at the end of a successful `send`
turn: `tool_calls=[tc.to_dict() for tc in chat_response.tool_calls] if
chat_response.tool_calls else None`. -/
def mkAssistantMsg (cr : ChatResponseE) : Message :=
  { role := MessageRole.assistant,
    content := cr.content,
    tool_calls := match cr.tool_calls with
      | some tcs => if tcs = [] then none else some tcs
      | none => none }

/-- How the provider behaves during one `send` turn: the outcome of the
first `create_message(_with_tools)` call, the outcome of the follow-up
`create_message` call inside `_handle_tool_calls` (if it is reached),
and the executor's result per tool call (total: the executor never
raises, see `executorExecute`). -/
structure SendBehavior where
  firstResponse : Except String RespData
  followUp : Except String String
  execRes : String → JsonObj → ToolResult

/-- The observable outcome of one `send_message` call: the final
conversation, the messages appended during the turn (in append order),
and the returned response or propagated exception. -/
structure SendOutcome where
  conv : List Message
  appended : List Message
  result : Except String ChatResponseE

/-- `ChatEngine.send_message` from `core/chat.py`: append the (possibly
thinking-wrapped) user message, call the provider, run
`_handle_tool_calls` when the response carries tool calls, process the
response, append the final assistant message.  On any exception the
handler pops the LAST message of the conversation
(`self.conversation.messages.pop()`) and re-raises. -/
def sendMessage (mh : Nat) (conv0 : List Message) (content : String)
    (enable_thinking : Bool) (beh : SendBehavior) : SendOutcome :=
  let modified := if enable_thinking then createThinkingPrompt content else content
  let userMsg : Message := { role := MessageRole.user, content := modified }
  let conv1 := addMessage mh conv0 userMsg
  match beh.firstResponse with
  | Except.error e =>
      { conv := pyPop conv1, appended := [userMsg], result := Except.error e }
  | Except.ok rd =>
      let afterTools : HtcOutcome :=
        if rd.tool_calls = [] then
          { conv := conv1, events := [], appended := [], result := Except.ok rd }
        else handleToolCalls mh conv1 rd beh.execRes beh.followUp
      match afterTools.result with
      | Except.error e =>
          { conv := pyPop afterTools.conv,
            appended := userMsg :: afterTools.appended,
            result := Except.error e }
      | Except.ok rd2 =>
          let cr := processResponse rd2 enable_thinking
          let asst := mkAssistantMsg cr
          { conv := addMessage mh afterTools.conv asst,
            appended := userMsg :: afterTools.appended ++ [asst],
            result := Except.ok cr }

/-- Provider behavior exhibiting the C1 failure: the first response
requests one tool call and the follow-up provider call raises. -/
def c1Behavior : SendBehavior :=
  { firstResponse := Except.ok { content := "", tool_calls := [⟨"t1", "f", []⟩] },
    followUp := Except.error "ProviderError: boom",
    execRes := fun _ _ => { success := true, result := some (JsonVal.str "42"), error := none } }

/-- C1 evaluated at the failing input: starting from an empty
conversation, `send_message("hi")` appends the user message and one
tool-result message; when the follow-up provider call raises, the
handler pops the LAST message — the tool message, not the user message —
so the exception propagates with the conversation holding the orphaned
user message: message count after the call is 1, not the 0 it held
before. -/
theorem send_turn_not_atomic_on_tool_followup_failure :
    (sendMessage 50 [] "hi" false c1Behavior).result = Except.error "ProviderError: boom" ∧
    (sendMessage 50 [] "hi" false c1Behavior).conv
      = [{ role := MessageRole.user, content := "hi" }] ∧
    (sendMessage 50 [] "hi" false c1Behavior).conv.length ≠ ([] : List Message).length := by
  refine ⟨rfl, rfl, by decide⟩

/-- All `tool_calls[].id` values carried by assistant messages of a
message list, in order. -/
def assistantIdsIn (msgs : List Message) : List String :=
  msgs.flatMap (fun m =>
    if m.role = MessageRole.assistant then (m.tool_calls.getD []).map ToolCallRec.id else [])

/-- The C6 property as the claim states it: every `tool`-role message
carries a `tool_call_id` equal to exactly one `tool_calls[].id` of an
assistant message appended EARLIER (at a strictly smaller index) in the
same message list. -/
def toolMsgsCorrelatedToPrior (msgs : List Message) : Bool :=
  msgs.enum.all (fun p =>
    match p.2.role, p.2.tool_call_id with
    | MessageRole.tool, some tid => (assistantIdsIn (msgs.take p.1)).count tid == 1
    | MessageRole.tool, none => false
    | _, _ => true)

/-- Provider behavior for a successful single-tool-call `send` turn. -/
def c6Behavior : SendBehavior :=
  { firstResponse := Except.ok { content := "", tool_calls := [⟨"t1", "f", []⟩] },
    followUp := Except.ok "done",
    execRes := fun _ _ => { success := true, result := some (JsonVal.str "42"), error := none } }

/-- Counterexample for C6 as stated: after one successful tool-calling
`send` turn the conversation is `[user, tool, assistant]` — the
tool-result message is appended BEFORE the assistant message that
carries the matching `tool_calls` entry, so the tool message at index 1
references no prior assistant `tool_calls[].id` and the stated
invariant is false at this concrete conversation. -/
theorem tool_correlation_prior_cx :
    (sendMessage 50 [] "hi" false c6Behavior).conv
      = [{ role := MessageRole.user, content := "hi" },
         { role := MessageRole.tool, content := "42", tool_call_id := some "t1" },
         { role := MessageRole.assistant, content := "done",
           tool_calls := some [⟨"t1", "f", []⟩] }] ∧
    toolMsgsCorrelatedToPrior (sendMessage 50 [] "hi" false c6Behavior).conv = false := by
  refine ⟨rfl, rfl⟩

/-- Shape of a successful tool-calling `send` turn: the messages
appended during the turn are the user message, then one tool message
per call in order, then the final assistant message. -/
theorem sendMessage_tools_ok_appended (mh : Nat) (conv0 : List Message) (content : String)
    (enable_thinking : Bool) (beh : SendBehavior) (rd : RespData) (s : String)
    (hfr : beh.firstResponse = Except.ok rd) (hne : rd.tool_calls ≠ [])
    (hfu : beh.followUp = Except.ok s) :
    (sendMessage mh conv0 content enable_thinking beh).appended
      = { role := MessageRole.user,
          content := if enable_thinking then createThinkingPrompt content else content }
        :: rd.tool_calls.map (toolResultMsg beh.execRes)
        ++ [mkAssistantMsg
              (processResponse { content := s, tool_calls := rd.tool_calls } enable_thinking)] := by
  have hH : ∀ conv1 : List Message,
      handleToolCalls mh conv1 rd beh.execRes beh.followUp
        = { conv := (rd.tool_calls.map (toolResultMsg beh.execRes)).foldl (addMessage mh) conv1,
            events := toolCallEvents beh.execRes rd.tool_calls ++ [TurnEvent.providerCall false],
            appended := rd.tool_calls.map (toolResultMsg beh.execRes),
            result := Except.ok { content := s, tool_calls := rd.tool_calls } } := by
    intro conv1
    unfold handleToolCalls
    rw [if_neg hne, htc_foldl_spec, hfu]
    simp
  simp only [sendMessage, hfr, if_neg hne, hH]

/-- Send-path half of the C6 correlation: during a successful
tool-calling `send` turn whose provider-reported tool-call ids are
distinct, every `tool`-role message appended in the turn carries a
`tool_call_id` equal to exactly one `tool_calls[].id` of the turn's
final assistant message, which is the last message appended. -/
theorem sendMessage_tool_correlation (mh : Nat) (conv0 : List Message) (content : String)
    (enable_thinking : Bool) (beh : SendBehavior) (rd : RespData) (s : String)
    (hfr : beh.firstResponse = Except.ok rd) (hne : rd.tool_calls ≠ [])
    (hfu : beh.followUp = Except.ok s)
    (hnd : (rd.tool_calls.map ToolCallRec.id).Nodup) :
    ∃ asst : Message,
      (sendMessage mh conv0 content enable_thinking beh).appended.getLast? = some asst ∧
      asst.role = MessageRole.assistant ∧
      ∀ m ∈ (sendMessage mh conv0 content enable_thinking beh).appended,
        m.role = MessageRole.tool →
          ∃ tid, m.tool_call_id = some tid ∧
            ((asst.tool_calls.getD []).map ToolCallRec.id).count tid = 1 := by
  refine ⟨mkAssistantMsg
      (processResponse { content := s, tool_calls := rd.tool_calls } enable_thinking),
    ?_, ?_, ?_⟩
  · rw [sendMessage_tools_ok_appended mh conv0 content enable_thinking beh rd s hfr hne hfu]
    exact List.getLast?_concat _
  · rfl
  · rw [sendMessage_tools_ok_appended mh conv0 content enable_thinking beh rd s hfr hne hfu]
    intro m hm hrole
    simp only [List.mem_cons, List.mem_append, List.mem_singleton] at hm
    rcases hm with (rfl | hm) | (rfl | hnil)
    · cases hrole
    · obtain ⟨c, hc, rfl⟩ := List.mem_map.mp hm
      refine ⟨c.id, rfl, ?_⟩
      have hgd : ((mkAssistantMsg
          (processResponse { content := s, tool_calls := rd.tool_calls }
            enable_thinking)).tool_calls.getD []) = rd.tool_calls := by
        simp [mkAssistantMsg, processResponse, if_neg hne]
      rw [hgd]
      exact List.count_eq_one_of_mem hnd (List.mem_map_of_mem ToolCallRec.id hc)
    · cases hrole
    · cases hnil

/-- Characters of a string literal up to the closing quote (no escape
sequences; sufficient for the argument strings the claims use). -/
def parseStringChars : List Char → Option (String × List Char)
  | [] => none
  | c :: cs =>
    if c = '"' then some ("", cs)
    else match parseStringChars cs with
      | some (s, rest) => some (String.mk (c :: s.data), rest)
      | none => none

/-- Leading decimal digits of a character list. -/
def spanDigits : List Char → (List Char × List Char)
  | [] => ([], [])
  | c :: cs =>
    if c.isDigit then
      let p := spanDigits cs
      (c :: p.1, p.2)
    else ([], c :: cs)

/-- Decimal digits to an integer. -/
def digitsToInt (ds : List Char) : Int :=
  ds.foldl (fun acc c => acc * 10 + ((c.toNat - '0'.toNat : Nat) : Int)) 0

/-- One JSON value: a string literal or an (optionally negated) integer. -/
def parseJsonValue : List Char → Option (JsonVal × List Char)
  | [] => none
  | c :: cs =>
    if c = '"' then (parseStringChars cs).map (fun p => (JsonVal.str p.1, p.2))
    else if c = '-' then
      match spanDigits cs with
      | ([], _) => none
      | (ds, rest) => some (JsonVal.num (-(digitsToInt ds)), rest)
    else if c.isDigit then
      let p := spanDigits (c :: cs)
      some (JsonVal.num (digitsToInt p.1), p.2)
    else none

/-- Members of a JSON object after the opening brace, ending at the
closing brace.  `fuel` bounds the recursion by the input length. -/
def parseJsonMembers : Nat → List Char → Option (JsonObj × List Char)
  | 0, _ => none
  | fuel + 1, input =>
    match input with
    | '"' :: cs =>
      match parseStringChars cs with
      | none => none
      | some (key, rest1) =>
        match rest1 with
        | ':' :: rest2 =>
          match parseJsonValue rest2 with
          | none => none
          | some (v, rest3) =>
            match rest3 with
            | ',' :: rest4 =>
              match parseJsonMembers fuel rest4 with
              | some (obj, rest5) => some ((key, v) :: obj, rest5)
              | none => none
            | '\x7d' :: rest4 => some ([(key, v)], rest4)
            | _ => none
        | _ => none
    | _ => none

/-- Modelled from the spec: Python's `json.loads` (standard library,
not part of this repository's sources), restricted to the flat JSON
objects with string keys and string/integer values that the streaming
tool-call scenario uses — "parse its accumulated argument fragments as a
single JSON value".  Returns `none` where `json.loads` would raise
`json.JSONDecodeError`. -/
def jsonLoadsObj (s : String) : Option JsonObj :=
  match s.data with
  | '\x7b' :: rest =>
    match rest with
    | '\x7d' :: rest2 => if rest2 = [] then some [] else none
    | _ =>
      match parseJsonMembers (s.length + 1) rest with
      | some (obj, rest2) => if rest2 = [] then some obj else none
      | none => none
  | _ => none

/-- One chunk of the provider's streamed-with-tools feed, from the
dict shapes consumed by `stream_message` in `core/chat.py`: a
`tool_call_start` (with id and name), a `tool_call_delta` carrying a
fragment of JSON-encoded arguments (`partial_json`; the chunk's own id
is not read by the code), a `content` text chunk, or the terminal
`stop` signal. -/
inductive StreamChunk where
  | toolCallStart (id name : String)
  | toolCallDelta (id fragment : String)
  | contentChunk (text : String)
  | stopChunk
deriving DecidableEq, Repr

/-- The per-call accumulation record built by `stream_message` (the
Python dict `{"id", "name", "arguments", "arguments_json"}`; the
`arguments` field starts as the string `""` and is replaced by the
parsed JSON object on `stop`, modelled as `none` until parsed). -/
structure ToolAccum where
  name : String
  argumentsJson : String
  argumentsVal : Option JsonObj
deriving DecidableEq, Repr

/-- The loop state of `stream_message`: accumulated text, accumulated
tool calls (a Python dict in insertion order), the most recently
started call's id (`current_tool_call`), the conversation, plus the
observable traces: tools executed (name and parsed arguments, in
execution order), chunks yielded to the caller, and the messages
appended to the conversation (within the loop these are the tool-result
messages, in append order; `streamMessage` completes the trace with the
user and final assistant messages appended outside the loop). -/
structure StreamState where
  accumulatedContent : String
  accumulatedToolCalls : List (String × ToolAccum)
  currentId : Option String
  conv : List Message
  executed : List (String × JsonObj)
  yielded : List String
  appendedMsgs : List Message
deriving DecidableEq, Repr

/-- Python dict assignment `d[k] = v`: overwrite in place if the key
exists (keeping its position), else append. -/
def dictInsert (d : List (String × ToolAccum)) (k : String) (v : ToolAccum) :
    List (String × ToolAccum) :=
  if d.any (fun p => p.1 == k) then d.map (fun p => if p.1 == k then (k, v) else p)
  else d ++ [(k, v)]

/-- In-place mutation of the record stored at key `k` (no-op when the
key is absent). -/
def dictUpdate (d : List (String × ToolAccum)) (k : String) (f : ToolAccum → ToolAccum) :
    List (String × ToolAccum) :=
  d.map (fun p => if p.1 == k then (p.1, f p.2) else p)

/-- The body of the `stop` handler of `stream_message` for one
accumulated tool call: parse the accumulated JSON fragments (an empty
string parses to the empty argument object), execute the tool, append
the tool message and yield the result text; a JSON parse failure is
caught by the surrounding `except`, yields an error chunk, and does not
abort the remaining calls (`execRes` itself is total: the executor
never raises). -/
def stopStep (mh : Nat) (execRes : String → JsonObj → ToolResult)
    (st : StreamState) (p : String × ToolAccum) : StreamState :=
  let parsed : Option JsonObj :=
    if p.2.argumentsJson = "" then some [] else jsonLoadsObj p.2.argumentsJson
  match parsed with
  | none =>
      let errText := "Error executing " ++ p.2.name ++ ": JSONDecodeError"
      { st with yielded := st.yielded ++ [errText],
                accumulatedContent := st.accumulatedContent ++ errText }
  | some args =>
      let result := execRes p.2.name args
      let resultText := toolResultContent result
      let toolMsg : Message :=
        { role := MessageRole.tool, content := resultText, tool_call_id := some p.1 }
      { st with
        accumulatedToolCalls :=
          dictUpdate st.accumulatedToolCalls p.1 (fun t => { t with argumentsVal := some args }),
        conv := addMessage mh st.conv toolMsg,
        executed := st.executed ++ [(p.2.name, args)],
        yielded := st.yielded ++ [resultText],
        accumulatedContent := st.accumulatedContent ++ resultText,
        appendedMsgs := st.appendedMsgs ++ [toolMsg] }

/-- One iteration of the `async for chunk_data in ...` loop of
`stream_message`, following the elif chain of the source.  A
`tool_call_delta` with no current tool call falls through to the final
else branch, where `_process_response` produces a chunk whose content is
the empty string; the `if response_chunk.content` guard then discards
it, so the state is unchanged. -/
def streamStep (mh : Nat) (execRes : String → JsonObj → ToolResult)
    (s : StreamState) (chunk : StreamChunk) : StreamState :=
  match chunk with
  | StreamChunk.toolCallStart id name =>
      { s with
        accumulatedToolCalls := dictInsert s.accumulatedToolCalls id
          { name := name, argumentsJson := "", argumentsVal := none },
        currentId := some id }
  | StreamChunk.toolCallDelta _ fragment =>
      match s.currentId with
      | some cid =>
          { s with accumulatedToolCalls :=
              (dictUpdate s.accumulatedToolCalls cid
                (fun tc => { tc with argumentsJson := tc.argumentsJson ++ fragment })) }
      | none => s
  | StreamChunk.contentChunk text =>
      { s with yielded := s.yielded ++ [text],
               accumulatedContent := s.accumulatedContent ++ text }
  | StreamChunk.stopChunk =>
      s.accumulatedToolCalls.foldl (stopStep mh execRes) s

/-- The whole provider feed consumed by the `stream_message` loop. -/
def streamRun (mh : Nat) (execRes : String → JsonObj → ToolResult)
    (s : StreamState) (feed : List StreamChunk) : StreamState :=
  feed.foldl (streamStep mh execRes) s

/-- The loop state at the start of a stream turn. -/
def initialStreamState (conv : List Message) : StreamState :=
  { accumulatedContent := "", accumulatedToolCalls := [], currentId := none,
    conv := conv, executed := [], yielded := [], appendedMsgs := [] }

/-- The `tool_calls_list` assembled after the feed ends in
`stream_message`: one entry per accumulated tool call, in dict order,
with `id` the dict key. -/
def streamToolCallsList (d : List (String × ToolAccum)) : List ToolCallRec :=
  d.map (fun p =>
    ({ id := p.1, name := p.2.name, arguments := p.2.argumentsVal.getD [] } : ToolCallRec))

/-- The consolidated final assistant message appended after the feed
ends in `stream_message` (`tool_calls_list if tool_calls_list else
None`). -/
def streamFinalMsg (s : StreamState) : Message :=
  { role := MessageRole.assistant, content := s.accumulatedContent,
    tool_calls := if streamToolCallsList s.accumulatedToolCalls = [] then none
      else some (streamToolCallsList s.accumulatedToolCalls) }

/-- `ChatEngine.stream_message` (tools-enabled path) from
`core/chat.py`: append the (possibly thinking-wrapped) user message,
consume the provider feed, then append one consolidated final assistant
message carrying the accumulated text and the executed tool calls.  In
the returned state, `appendedMsgs` is the complete append trace of the
turn: the user message, then the tool-result messages in stop-handler
order, then the final assistant message. -/
def streamMessage (mh : Nat) (conv0 : List Message) (content : String)
    (enable_thinking : Bool) (execRes : String → JsonObj → ToolResult)
    (feed : List StreamChunk) : StreamState :=
  let modified := if enable_thinking then createThinkingPrompt content else content
  let userMsg : Message := { role := MessageRole.user, content := modified }
  let conv1 := addMessage mh conv0 userMsg
  let s := streamRun mh execRes (initialStreamState conv1) feed
  let finalMsg : Message := streamFinalMsg s
  { s with conv := addMessage mh s.conv finalMsg,
           appendedMsgs := userMsg :: s.appendedMsgs ++ [finalMsg] }

/-- Concatenation of the streamed argument fragments, in arrival order
(`current_tool_call["arguments_json"] += ...`). -/
def joinFrags : List String → String
  | [] => ""
  | f :: rest => f ++ joinFrags rest

/-- Consuming a run of `tool_call_delta` chunks while a single
accumulated call is current appends the concatenated fragments to its
`arguments_json`. -/
theorem streamRun_deltas (mh : Nat) (execRes : String → JsonObj → ToolResult) (id : String)
    (frags : List String) :
    ∀ (s : StreamState) (tc : ToolAccum),
      s.currentId = some id →
      s.accumulatedToolCalls = [(id, tc)] →
      streamRun mh execRes s (frags.map (StreamChunk.toolCallDelta id))
        = { s with accumulatedToolCalls :=
              [(id, { tc with argumentsJson := tc.argumentsJson ++ joinFrags frags })] } := by
  induction frags with
  | nil =>
    intro s tc hcur hacc
    simp only [List.map_nil, streamRun, List.foldl_nil, joinFrags, String.append_empty]
    rw [← hacc]
  | cons f rest ih =>
    intro s tc hcur hacc
    simp only [List.map_cons, streamRun, List.foldl_cons]
    have hstep : streamStep mh execRes s (StreamChunk.toolCallDelta id f)
        = { s with accumulatedToolCalls :=
              [(id, { tc with argumentsJson := tc.argumentsJson ++ f })] } := by
      simp only [streamStep, hcur, hacc, dictUpdate, List.map_cons, List.map_nil,
        beq_self_eq_true, if_pos]
    rw [hstep]
    have := ih { s with accumulatedToolCalls :=
        [(id, { tc with argumentsJson := tc.argumentsJson ++ f })] }
      { tc with argumentsJson := tc.argumentsJson ++ f } hcur rfl
    simp only [streamRun] at this
    rw [this]
    simp [joinFrags, String.append_assoc]

/-- C7: in `stream_message`, a provider feed emitting
`tool_call_start(id, name)`, then any run of `tool_call_delta` argument
fragments, then `stop`, executes the named tool exactly once, with
arguments equal to the JSON parse of the concatenated fragments, an
empty accumulated fragment string parsing to the empty argument
object. -/
theorem stream_tool_call_assembly (mh : Nat) (conv0 : List Message) (content : String)
    (enable_thinking : Bool) (execRes : String → JsonObj → ToolResult)
    (id name : String) (frags : List String) (args : JsonObj)
    (hp : joinFrags frags ≠ "" → jsonLoadsObj (joinFrags frags) = some args)
    (hemp : joinFrags frags = "" → args = []) :
    (streamMessage mh conv0 content enable_thinking execRes
        (StreamChunk.toolCallStart id name
          :: frags.map (StreamChunk.toolCallDelta id) ++ [StreamChunk.stopChunk])).executed
      = [(name, args)] := by
  have hexec : (streamMessage mh conv0 content enable_thinking execRes
        (StreamChunk.toolCallStart id name
          :: frags.map (StreamChunk.toolCallDelta id) ++ [StreamChunk.stopChunk])).executed
      = (streamRun mh execRes
          (initialStreamState (addMessage mh conv0
            { role := MessageRole.user,
              content := if enable_thinking then createThinkingPrompt content else content }))
          (StreamChunk.toolCallStart id name
            :: frags.map (StreamChunk.toolCallDelta id) ++ [StreamChunk.stopChunk])).executed := rfl
  rw [hexec]
  set conv1 := addMessage mh conv0
    { role := MessageRole.user,
      content := if enable_thinking then createThinkingPrompt content else content } with hconv1
  simp only [streamRun, List.foldl_cons, List.foldl_append, List.foldl_nil]
  have hstart : streamStep mh execRes (initialStreamState conv1)
        (StreamChunk.toolCallStart id name)
      = { initialStreamState conv1 with
          accumulatedToolCalls := [(id, { name := name, argumentsJson := "", argumentsVal := none })],
          currentId := some id } := by
    simp [streamStep, initialStreamState, dictInsert]
  rw [hstart]
  have hdeltas := streamRun_deltas mh execRes id frags
    { initialStreamState conv1 with
      accumulatedToolCalls := [(id, { name := name, argumentsJson := "", argumentsVal := none })],
      currentId := some id }
    { name := name, argumentsJson := "", argumentsVal := none } rfl rfl
  simp only [streamRun] at hdeltas
  rw [hdeltas]
  simp only [String.empty_append]
  by_cases hj : joinFrags frags = ""
  · have hargs := hemp hj
    subst hargs
    simp [streamStep, stopStep, hj, initialStreamState]
  · have hparse := hp hj
    simp [streamStep, stopStep, hj, hparse, initialStreamState]

/-- Witness for C7: the spec's concrete scenario — events
`[tool_call_start(id=a, name=calc), tool_call_delta("\x7b\"op"),
tool_call_delta("eration\":\"add\",\"a\":1,\"b\":2\x7d"), stop]`
execute `calc` exactly once with `{operation: "add", a: 1, b: 2}`. -/
theorem stream_tool_call_assembly_witness :
    (streamMessage 50 [] "q" false
        (fun _ _ => { success := true, result := some (JsonVal.num 3), error := none })
        (StreamChunk.toolCallStart "a" "calc"
          :: ["\x7b\"op", "eration\":\"add\",\"a\":1,\"b\":2\x7d"].map
              (StreamChunk.toolCallDelta "a")
          ++ [StreamChunk.stopChunk])).executed
      = [("calc", [("operation", JsonVal.str "add"), ("a", JsonVal.num 1),
                   ("b", JsonVal.num 2)])] :=
  stream_tool_call_assembly 50 [] "q" false
    (fun _ _ => { success := true, result := some (JsonVal.num 3), error := none })
    "a" "calc" ["\x7b\"op", "eration\":\"add\",\"a\":1,\"b\":2\x7d"]
    [("operation", JsonVal.str "add"), ("a", JsonVal.num 1), ("b", JsonVal.num 2)]
    (fun _ => rfl) (fun h => absurd h (by decide))

/-- C10: a `tool_call_delta` chunk arriving while no tool call has been
started (`current_tool_call` is `None`) is silently ignored: the loop
state — including every accumulated tool call's arguments — is
unchanged, nothing is yielded, no exception can arise (the step
function is total), and the remaining feed is processed exactly as if
the stray delta had not occurred. -/
theorem stream_delta_before_start_ignored (mh : Nat)
    (execRes : String → JsonObj → ToolResult) (s : StreamState)
    (h : s.currentId = none) (id fragment : String) :
    streamStep mh execRes s (StreamChunk.toolCallDelta id fragment) = s ∧
    ∀ rest : List StreamChunk,
      streamRun mh execRes s (StreamChunk.toolCallDelta id fragment :: rest)
        = streamRun mh execRes s rest := by
  have hstep : streamStep mh execRes s (StreamChunk.toolCallDelta id fragment) = s := by
    simp [streamStep, h]
  refine ⟨hstep, ?_⟩
  intro rest
  simp only [streamRun, List.foldl_cons, hstep]

/-- Witness for C10: a stray delta at the very start of a stream turn,
followed by a content chunk. -/
theorem stream_delta_before_start_ignored_witness :
    streamStep 50 (fun _ _ => { success := true, result := none, error := none })
        (initialStreamState []) (StreamChunk.toolCallDelta "x" "junk")
      = initialStreamState [] ∧
    streamRun 50 (fun _ _ => { success := true, result := none, error := none })
        (initialStreamState [])
        [StreamChunk.toolCallDelta "x" "junk", StreamChunk.contentChunk "hi"]
      = streamRun 50 (fun _ _ => { success := true, result := none, error := none })
        (initialStreamState []) [StreamChunk.contentChunk "hi"] :=
  ⟨(stream_delta_before_start_ignored 50
      (fun _ _ => { success := true, result := none, error := none })
      (initialStreamState []) rfl "x" "junk").1,
   (stream_delta_before_start_ignored 50
      (fun _ _ => { success := true, result := none, error := none })
      (initialStreamState []) rfl "x" "junk").2 [StreamChunk.contentChunk "hi"]⟩

/-- `Conversation` from `core/conversation.py`. -/
structure Conversation where
  messages : List Message := []
  max_history : Nat := 50
  system_prompt : Option String := none
deriving DecidableEq, Repr

/-- `SessionInfo` from `core/session.py`. -/
structure SessionInfo where
  session_id : String
  title : String
  created_at : String
  updated_at : String
  provider : String
  model : String
  message_count : Nat
  tags : List String := []
deriving DecidableEq, Repr

/-- `ChatSession` from `core/session.py`. -/
structure ChatSession where
  info : SessionInfo
  conversation : Conversation
deriving DecidableEq, Repr

/-- `MessageRole(...).value`. -/
def roleToStr : MessageRole → String
  | MessageRole.system => "system"
  | MessageRole.user => "user"
  | MessageRole.assistant => "assistant"
  | MessageRole.tool => "tool"

/-- `MessageRole(data["role"])`: `none` models the `ValueError` raised
on an unknown role string. -/
def roleFromStr (s : String) : Option MessageRole :=
  if s = "system" then some MessageRole.system
  else if s = "user" then some MessageRole.user
  else if s = "assistant" then some MessageRole.assistant
  else if s = "tool" then some MessageRole.tool
  else none

/-- The dict produced by `Message.to_dict`: `tool_calls` and
`tool_call_id` are optional keys, omitted when falsy. -/
structure MessageDict where
  role : String
  content : String
  tool_calls : Option (List ToolCallRec)
  tool_call_id : Option String
deriving DecidableEq, Repr

/-- `Message.to_dict` from `providers/base.py`: the `tool_calls` key is
written only `if self.tool_calls` (so an empty list is dropped), and
`tool_call_id` only `if self.tool_call_id` (so an empty string is
dropped). -/
def messageToDict (m : Message) : MessageDict :=
  { role := roleToStr m.role,
    content := m.content,
    tool_calls := match m.tool_calls with
      | some tcs => if tcs = [] then none else some tcs
      | none => none,
    tool_call_id := match m.tool_call_id with
      | some tid => if tid = "" then none else some tid
      | none => none }

/-- `Message.from_dict`: `data.get("tool_calls")` and
`data.get("tool_call_id")` yield `None` for missing keys. -/
def messageFromDict (d : MessageDict) : Option Message :=
  (roleFromStr d.role).map (fun r =>
    { role := r, content := d.content,
      tool_calls := d.tool_calls, tool_call_id := d.tool_call_id })

/-- The conversation part of `ChatSession.to_dict`. -/
structure ConversationDict where
  messages : List MessageDict
  max_history : Nat
  system_prompt : Option String
deriving DecidableEq, Repr

/-- The dict produced by `ChatSession.to_dict` (`info` passes through
`asdict`, which is field-for-field). -/
structure SessionDict where
  info : SessionInfo
  conversation : ConversationDict
deriving DecidableEq, Repr

/-- `ChatSession.to_dict` from `core/session.py`. -/
def sessionToDict (s : ChatSession) : SessionDict :=
  { info := s.info,
    conversation :=
      { messages := s.conversation.messages.map messageToDict,
        max_history := s.conversation.max_history,
        system_prompt := s.conversation.system_prompt } }

/-- `ChatSession.from_dict` from `core/session.py` (a message with an
invalid role makes the whole deserialization fail, modelling the
propagated `ValueError`). -/
def sessionFromDict (d : SessionDict) : Option ChatSession :=
  match d.conversation.messages.mapM messageFromDict with
  | some msgs =>
      some { info := d.info,
             conversation :=
               { messages := msgs,
                 max_history := d.conversation.max_history,
                 system_prompt := d.conversation.system_prompt } }
  | none => none

/-- A session whose only message carries `tool_calls = []`, which
`Message.to_dict` drops as falsy. -/
def c8BadSession : ChatSession :=
  { info := { session_id := "s1", title := "t", created_at := "c", updated_at := "u",
              provider := "p", model := "m", message_count := 1, tags := [] },
    conversation :=
      { messages := [{ role := MessageRole.assistant, content := "x",
                       tool_calls := some [], tool_call_id := none }],
        max_history := 50, system_prompt := none } }

/-- Counterexample for C8 as stated: serializing then deserializing a
session whose assistant message carries an empty `tool_calls` list does
NOT reproduce the original — `to_dict` omits the falsy `tool_calls` key
and `from_dict` reads it back as `None`, so the messages differ
(`[] != None` in the Python dataclass equality). -/
theorem session_roundtrip_cx :
    sessionFromDict (sessionToDict c8BadSession) ≠ some c8BadSession := by
  decide

/-- Per-message round trip, away from the falsy-field edge cases. -/
theorem message_roundtrip (m : Message)
    (htc : m.tool_calls ≠ some []) (hid : m.tool_call_id ≠ some "") :
    messageFromDict (messageToDict m) = some m := by
  obtain ⟨role, content, tool_calls, tool_call_id⟩ := m
  have hrole : roleFromStr (roleToStr role) = some role := by cases role <;> rfl
  unfold messageToDict messageFromDict
  cases tool_calls with
  | none =>
    cases tool_call_id with
    | none => simp [hrole]
    | some tid =>
      have hne : tid ≠ "" := by intro he; subst he; exact hid rfl
      simp [hrole, hne]
  | some tcs =>
    cases tcs with
    | nil => exact absurd rfl htc
    | cons a l =>
      cases tool_call_id with
      | none => simp [hrole]
      | some tid =>
        have hne : tid ≠ "" := by intro he; subst he; exact hid rfl
        simp [hrole, hne]

/-- List-of-messages round trip. -/
theorem messages_roundtrip (msgs : List Message)
    (h : ∀ m ∈ msgs, m.tool_calls ≠ some [] ∧ m.tool_call_id ≠ some "") :
    (msgs.map messageToDict).mapM messageFromDict = some msgs := by
  induction msgs with
  | nil => rfl
  | cons m rest ih =>
    have hm := h m (List.mem_cons_self m rest)
    have hrest : ∀ m' ∈ rest, m'.tool_calls ≠ some [] ∧ m'.tool_call_id ≠ some "" :=
      fun m' hm' => h m' (List.mem_cons_of_mem m hm')
    simp only [List.map_cons, List.mapM_cons]
    rw [message_roundtrip m hm.1 hm.2, ih hrest]
    rfl

/-- C8 (amended): `ChatSession.from_dict(session.to_dict())` reproduces
the session — equal `SessionInfo` fields (including tags) and a
`Conversation` with equal messages in the same order, the same
`max_history` and the same `system_prompt` — for every session none of
whose messages carries the falsy values `tool_calls = []` or
`tool_call_id = ""` (those are dropped by `to_dict` and read back as
`None`, see the counterexample). -/
theorem session_roundtrip (s : ChatSession)
    (h : ∀ m ∈ s.conversation.messages, m.tool_calls ≠ some [] ∧ m.tool_call_id ≠ some "") :
    sessionFromDict (sessionToDict s) = some s := by
  unfold sessionToDict sessionFromDict
  simp only []
  rw [messages_roundtrip s.conversation.messages h]

/-- A non-trivial session: system, user, assistant-with-tool-calls and
tool messages, with tags. -/
def c8GoodSession : ChatSession :=
  { info := { session_id := "abc12345", title := "maths", created_at := "2024-01-01T00:00:00",
              updated_at := "2024-01-02T00:00:00", provider := "anthropic",
              model := "claude", message_count := 4, tags := ["work", "maths"] },
    conversation :=
      { messages :=
          [{ role := MessageRole.system, content := "be helpful" },
           { role := MessageRole.user, content := "add 1 and 2" },
           { role := MessageRole.tool, content := "3", tool_call_id := some "t1" },
           { role := MessageRole.assistant, content := "it is 3",
             tool_calls := some [⟨"t1", "calculator", [("a", JsonVal.num 1)]⟩] }],
        max_history := 50, system_prompt := some "be helpful" } }

/-- Witness for C8 at the non-trivial session `c8GoodSession`. -/
theorem session_roundtrip_witness :
    sessionFromDict (sessionToDict c8GoodSession) = some c8GoodSession :=
  session_roundtrip c8GoodSession (by decide)

/-- `ModelInfo` from `providers/base.py`; the two `float` cost fields
are scaled to thousandths of a unit (`0.01` becomes `10`) since exact
binary floating point is outside this embedding and no claim depends on
their values. -/
structure ModelInfo where
  name : String
  max_tokens : Nat
  supports_streaming : Bool
  supports_tools : Bool
  supports_thinking : Bool
  context_window : Nat
  input_cost_per_1k_milli : Nat
  output_cost_per_1k_milli : Nat
deriving DecidableEq, Repr

/-- A raised Python exception, with its class and message. -/
structure PyExc where
  kind : String
  msg : String
deriving DecidableEq, Repr

/-- The `NotImplementedError` raised throughout
`providers/openrouter.py`. -/
def openRouterNotImplemented : PyExc :=
  { kind := "NotImplementedError", msg := "OpenRouter provider not yet implemented" }

/-- A tool schema as passed to the with-tools provider operations
(only its identity matters to these claims). -/
structure ToolSchemaD where
  name : String
  description : String
deriving DecidableEq, Repr

/-- `OpenRouterProvider.create_message`: raises `NotImplementedError`. -/
def openRouterCreateMessage (_messages : List Message) : Except PyExc String :=
  Except.error openRouterNotImplemented

/-- `OpenRouterProvider.stream_message`: raises `NotImplementedError`. -/
def openRouterStreamMessage (_messages : List Message) : Except PyExc (List String) :=
  Except.error openRouterNotImplemented

/-- `OpenRouterProvider.create_message_with_tools`: raises
`NotImplementedError`. -/
def openRouterCreateMessageWithTools (_messages : List Message)
    (_tools : List ToolSchemaD) : Except PyExc RespData :=
  Except.error openRouterNotImplemented

/-- `OpenRouterProvider.stream_message_with_tools`: raises
`NotImplementedError`. -/
def openRouterStreamMessageWithTools (_messages : List Message)
    (_tools : List ToolSchemaD) : Except PyExc (List StreamChunk) :=
  Except.error openRouterNotImplemented

/-- `OpenRouterProvider.get_model_info`: despite its TODO comment it
does NOT raise — it returns a hard-coded `ModelInfo`. -/
def openRouterGetModelInfo (model : String) : Except PyExc ModelInfo :=
  Except.ok
    { name := model, max_tokens := 4096, supports_streaming := true,
      supports_tools := true, supports_thinking := false, context_window := 200000,
      input_cost_per_1k_milli := 10, output_cost_per_1k_milli := 30 }

/-- `OpenRouterProvider.list_models`: returns the single hard-coded
model description from `get_model_info`. -/
def openRouterListModels : Except PyExc (List ModelInfo) :=
  match openRouterGetModelInfo "anthropic/claude-3.5-sonnet" with
  | Except.ok mi => Except.ok [mi]
  | Except.error e => Except.error e

/-- Counterexample for C9 as stated: `get_model_info` and `list_models`
on the OpenRouter provider do NOT fail with a "not implemented" error —
they return hard-coded default data, which is exactly what the claim
says must not happen. -/
theorem openrouter_not_all_fail_cx :
    openRouterGetModelInfo "some-model"
      = Except.ok
          { name := "some-model", max_tokens := 4096, supports_streaming := true,
            supports_tools := true, supports_thinking := false, context_window := 200000,
            input_cost_per_1k_milli := 10, output_cost_per_1k_milli := 30 } ∧
    openRouterListModels
      = Except.ok
          [{ name := "anthropic/claude-3.5-sonnet", max_tokens := 4096,
             supports_streaming := true, supports_tools := true,
             supports_thinking := false, context_window := 200000,
             input_cost_per_1k_milli := 10, output_cost_per_1k_milli := 30 }] :=
  ⟨rfl, rfl⟩

/-- C9 (amended): the four message operations of the OpenRouter
provider (`create_message`, `stream_message`,
`create_message_with_tools`, `stream_message_with_tools`) all fail with
a clearly-labeled `NotImplementedError`, but `get_model_info` and
`list_models` instead return hard-coded placeholder model data. -/
theorem openrouter_message_ops_not_implemented (messages : List Message)
    (tools : List ToolSchemaD) (model : String) :
    openRouterCreateMessage messages = Except.error openRouterNotImplemented ∧
    openRouterStreamMessage messages = Except.error openRouterNotImplemented ∧
    openRouterCreateMessageWithTools messages tools = Except.error openRouterNotImplemented ∧
    openRouterStreamMessageWithTools messages tools = Except.error openRouterNotImplemented ∧
    openRouterGetModelInfo model
      = Except.ok
          { name := model, max_tokens := 4096, supports_streaming := true,
            supports_tools := true, supports_thinking := false, context_window := 200000,
            input_cost_per_1k_milli := 10, output_cost_per_1k_milli := 30 } ∧
    openRouterListModels
      = Except.ok
          [{ name := "anthropic/claude-3.5-sonnet", max_tokens := 4096,
             supports_streaming := true, supports_tools := true,
             supports_thinking := false, context_window := 200000,
             input_cost_per_1k_milli := 10, output_cost_per_1k_milli := 30 }] :=
  ⟨rfl, rfl, rfl, rfl, rfl, rfl⟩

/-- A dict overwrite (`d[k] = v` with the key present) keeps the key
sequence; a fresh insert appends the new key, which was absent. -/
theorem dictInsert_keys (d : List (String × ToolAccum)) (k : String) (v : ToolAccum) :
    (dictInsert d k v).map Prod.fst = d.map Prod.fst ∨
    ((dictInsert d k v).map Prod.fst = d.map Prod.fst ++ [k] ∧ k ∉ d.map Prod.fst) := by
  unfold dictInsert
  split
  · left
    rw [List.map_map]
    apply List.map_congr_left
    intro p _
    by_cases hb : p.1 == k
    · have hpk := eq_of_beq hb
      simp [Function.comp, hb, hpk]
    · simp [Function.comp, hb]
  · right
    rename_i hany
    refine ⟨by simp, ?_⟩
    intro hmem
    apply hany
    obtain ⟨p, hp, hpk⟩ := List.mem_map.mp hmem
    exact List.any_eq_true.mpr ⟨p, hp, by simp [hpk]⟩

/-- In-place value mutation keeps the key sequence. -/
theorem dictUpdate_keys (d : List (String × ToolAccum)) (k : String) (f : ToolAccum → ToolAccum) :
    (dictUpdate d k f).map Prod.fst = d.map Prod.fst := by
  unfold dictUpdate
  rw [List.map_map]
  apply List.map_congr_left
  intro p _
  by_cases hb : p.1 == k <;> simp [Function.comp, hb]

/-- The stop handler never changes the accumulated dict's keys. -/
theorem stopStep_keys (mh : Nat) (execRes : String → JsonObj → ToolResult)
    (st : StreamState) (p : String × ToolAccum) :
    (stopStep mh execRes st p).accumulatedToolCalls.map Prod.fst
      = st.accumulatedToolCalls.map Prod.fst := by
  simp only [stopStep]
  split
  · rfl
  · dsimp only
    exact dictUpdate_keys st.accumulatedToolCalls p.1 _

/-- The stop handler either appends nothing (argument parse failure) or
exactly one tool-result message whose `tool_call_id` is the processed
entry's dict key. -/
theorem stopStep_appendedMsgs (mh : Nat) (execRes : String → JsonObj → ToolResult)
    (st : StreamState) (p : String × ToolAccum) :
    (stopStep mh execRes st p).appendedMsgs = st.appendedMsgs ∨
    ∃ args, (stopStep mh execRes st p).appendedMsgs
        = st.appendedMsgs
          ++ [{ role := MessageRole.tool,
                content := toolResultContent (execRes p.2.name args),
                tool_call_id := some p.1 }] := by
  simp only [stopStep]
  split
  · left
    rfl
  · right
    exact ⟨_, rfl⟩

/-- Invariant of the `stream_message` loop state: the accumulated
dict's keys are distinct (Python dict keys are unique), and every
message appended so far is a tool-result message whose `tool_call_id`
is one of the current keys (keys are never removed). -/
def StreamTurnInv (s : StreamState) : Prop :=
  (s.accumulatedToolCalls.map Prod.fst).Nodup ∧
  ∀ m ∈ s.appendedMsgs, m.role = MessageRole.tool ∧
    ∃ k, k ∈ s.accumulatedToolCalls.map Prod.fst ∧ m.tool_call_id = some k

/-- Folding the stop handler over any entry list keeps the keys. -/
theorem foldl_stopStep_keys (mh : Nat) (execRes : String → JsonObj → ToolResult)
    (l : List (String × ToolAccum)) :
    ∀ st : StreamState,
      ((l.foldl (stopStep mh execRes) st).accumulatedToolCalls.map Prod.fst)
        = st.accumulatedToolCalls.map Prod.fst := by
  induction l with
  | nil => intro st; rfl
  | cons p rest ih =>
    intro st
    rw [List.foldl_cons, ih, stopStep_keys]

/-- Folding the stop handler preserves the loop invariant, provided
every processed entry's key is a current key. -/
theorem foldl_stopStep_inv (mh : Nat) (execRes : String → JsonObj → ToolResult)
    (l : List (String × ToolAccum)) :
    ∀ st : StreamState, StreamTurnInv st →
      (∀ p ∈ l, p.1 ∈ st.accumulatedToolCalls.map Prod.fst) →
      StreamTurnInv (l.foldl (stopStep mh execRes) st) := by
  induction l with
  | nil => intro st h _; exact h
  | cons p rest ih =>
    intro st h hl
    rw [List.foldl_cons]
    apply ih
    · constructor
      · rw [stopStep_keys]
        exact h.1
      · intro m hm
        rcases stopStep_appendedMsgs mh execRes st p with heq | ⟨args, heq⟩
        · rw [heq] at hm
          obtain ⟨hrole, k, hk, hid⟩ := h.2 m hm
          exact ⟨hrole, k, by rw [stopStep_keys]; exact hk, hid⟩
        · rw [heq] at hm
          rcases List.mem_append.mp hm with hm' | hm'
          · obtain ⟨hrole, k, hk, hid⟩ := h.2 m hm'
            exact ⟨hrole, k, by rw [stopStep_keys]; exact hk, hid⟩
          · rcases List.mem_singleton.mp hm' with rfl
            refine ⟨rfl, p.1, ?_, rfl⟩
            rw [stopStep_keys]
            exact hl p (List.mem_cons_self p rest)
    · intro q hq
      rw [stopStep_keys]
      exact hl q (List.mem_cons_of_mem p hq)

/-- One loop iteration preserves the stream-turn invariant. -/
theorem streamStep_inv (mh : Nat) (execRes : String → JsonObj → ToolResult)
    (c : StreamChunk) (s : StreamState) (h : StreamTurnInv s) :
    StreamTurnInv (streamStep mh execRes s c) := by
  cases c with
  | toolCallStart id name =>
    simp only [streamStep]
    rcases dictInsert_keys s.accumulatedToolCalls id
        { name := name, argumentsJson := "", argumentsVal := none } with hk | ⟨hk, hnot⟩
    · refine ⟨?_, ?_⟩
      · dsimp only
        rw [hk]
        exact h.1
      · intro m hm
        obtain ⟨hrole, k, hkk, hid⟩ := h.2 m hm
        exact ⟨hrole, k, by dsimp only; rw [hk]; exact hkk, hid⟩
    · refine ⟨?_, ?_⟩
      · dsimp only
        rw [hk]
        simp [List.nodup_append, h.1, hnot]
      · intro m hm
        obtain ⟨hrole, k, hkk, hid⟩ := h.2 m hm
        exact ⟨hrole, k, by dsimp only; rw [hk]; exact List.mem_append_left _ hkk, hid⟩
  | toolCallDelta id fragment =>
    simp only [streamStep]
    split
    · refine ⟨?_, ?_⟩
      · dsimp only
        rw [dictUpdate_keys]
        exact h.1
      · intro m hm
        obtain ⟨hrole, k, hkk, hid⟩ := h.2 m hm
        exact ⟨hrole, k, by dsimp only; rw [dictUpdate_keys]; exact hkk, hid⟩
    · exact h
  | contentChunk text =>
    exact ⟨h.1, h.2⟩
  | stopChunk =>
    simp only [streamStep]
    apply foldl_stopStep_inv mh execRes _ _ h
    intro p hp
    exact List.mem_map_of_mem Prod.fst hp

/-- The whole feed preserves the stream-turn invariant. -/
theorem streamRun_inv (mh : Nat) (execRes : String → JsonObj → ToolResult)
    (feed : List StreamChunk) :
    ∀ s : StreamState, StreamTurnInv s → StreamTurnInv (streamRun mh execRes s feed) := by
  induction feed with
  | nil => intro s h; exact h
  | cons c rest ih =>
    intro s h
    have hstep : streamRun mh execRes s (c :: rest)
        = streamRun mh execRes (streamStep mh execRes s c) rest := rfl
    rw [hstep]
    exact ih _ (streamStep_inv mh execRes c s h)

/-- The `tool_calls[].id` values of the final assistant message are
exactly the accumulated dict's keys. -/
theorem streamFinalMsg_ids (sF : StreamState) (hne : sF.accumulatedToolCalls ≠ []) :
    ((streamFinalMsg sF).tool_calls.getD []).map ToolCallRec.id
      = sF.accumulatedToolCalls.map Prod.fst := by
  unfold streamFinalMsg
  have hmap : streamToolCallsList sF.accumulatedToolCalls ≠ [] := by
    unfold streamToolCallsList
    simp [hne]
  rw [if_neg hmap]
  dsimp only [Option.getD]
  unfold streamToolCallsList
  rw [List.map_map]
  apply List.map_congr_left
  intro p _
  rfl

/-- Executor behavior for the concrete C6 stream turn. -/
def c6Exec : String → JsonObj → ToolResult :=
  fun _ _ => { success := true, result := some (JsonVal.num 3), error := none }

/-- Provider feed for the concrete C6 stream turn: one tool call,
argument fragments forming an empty object, then stop. -/
def c6Feed : List StreamChunk :=
  [StreamChunk.toolCallStart "t2" "calc", StreamChunk.toolCallDelta "t2" "\x7b\x7d",
   StreamChunk.stopChunk]

/-- C6 (amended): in both engine paths, every `tool`-role message
appended during a turn carries a `tool_call_id` equal to exactly one
`tool_calls[].id` of the turn's final assistant message — which is
appended LATER in the turn (it is the last message appended), not
earlier in message order as the original claim states.  For `send`
turns this holds for every successful tool-calling turn whose
provider-reported ids are distinct; for `stream` turns it holds for
every feed whatsoever, because the accumulated dict's keys are unique
and the final assistant message's `tool_calls` enumerates exactly those
keys. -/
theorem tool_correlation_same_turn (mh : Nat) (conv0 : List Message) (content : String)
    (enable_thinking : Bool) (beh : SendBehavior) (rd : RespData) (s : String)
    (execRes : String → JsonObj → ToolResult) (feed : List StreamChunk) :
    (beh.firstResponse = Except.ok rd → rd.tool_calls ≠ [] →
      beh.followUp = Except.ok s → (rd.tool_calls.map ToolCallRec.id).Nodup →
      ∃ asst : Message,
        (sendMessage mh conv0 content enable_thinking beh).appended.getLast? = some asst ∧
        asst.role = MessageRole.assistant ∧
        ∀ m ∈ (sendMessage mh conv0 content enable_thinking beh).appended,
          m.role = MessageRole.tool →
            ∃ tid, m.tool_call_id = some tid ∧
              ((asst.tool_calls.getD []).map ToolCallRec.id).count tid = 1) ∧
    (∃ asst : Message,
        (streamMessage mh conv0 content enable_thinking execRes feed).appendedMsgs.getLast?
          = some asst ∧
        asst.role = MessageRole.assistant ∧
        ∀ m ∈ (streamMessage mh conv0 content enable_thinking execRes feed).appendedMsgs,
          m.role = MessageRole.tool →
            ∃ tid, m.tool_call_id = some tid ∧
              ((asst.tool_calls.getD []).map ToolCallRec.id).count tid = 1) := by
  constructor
  · intro hfr hne hfu hnd
    exact sendMessage_tool_correlation mh conv0 content enable_thinking beh rd s hfr hne hfu hnd
  · set conv1 := addMessage mh conv0
      { role := MessageRole.user,
        content := if enable_thinking then createThinkingPrompt content else content }
      with hconv1
    set sF := streamRun mh execRes (initialStreamState conv1) feed with hsF
    have hinv : StreamTurnInv sF := by
      apply streamRun_inv
      refine ⟨List.nodup_nil, ?_⟩
      intro m hm
      exact absurd hm (List.not_mem_nil m)
    have hout : (streamMessage mh conv0 content enable_thinking execRes feed).appendedMsgs
        = { role := MessageRole.user,
            content := if enable_thinking then createThinkingPrompt content else content }
          :: sF.appendedMsgs ++ [streamFinalMsg sF] := rfl
    refine ⟨streamFinalMsg sF, ?_, rfl, ?_⟩
    · rw [hout]
      exact List.getLast?_concat _
    · rw [hout]
      intro m hm hrole
      simp only [List.mem_cons, List.mem_append, List.mem_singleton] at hm
      rcases hm with (rfl | hm) | (rfl | hnil)
      · cases hrole
      · obtain ⟨hrole', k, hk, hid⟩ := hinv.2 m hm
        refine ⟨k, hid, ?_⟩
        have hacc : sF.accumulatedToolCalls ≠ [] := by
          intro h0
          rw [h0] at hk
          exact absurd hk (by simp)
        rw [streamFinalMsg_ids sF hacc]
        exact List.count_eq_one_of_mem hinv.1 hk
      · cases hrole
      · cases hnil

/-- Witness for C6: the send half at the concrete behavior
`c6Behavior`, and the stream half at the concrete feed `c6Feed`. -/
theorem tool_correlation_same_turn_witness :
    (∃ asst : Message,
      (sendMessage 50 [] "hi" false c6Behavior).appended.getLast? = some asst ∧
      asst.role = MessageRole.assistant ∧
      ∀ m ∈ (sendMessage 50 [] "hi" false c6Behavior).appended,
        m.role = MessageRole.tool →
          ∃ tid, m.tool_call_id = some tid ∧
            ((asst.tool_calls.getD []).map ToolCallRec.id).count tid = 1) ∧
    (∃ asst : Message,
      (streamMessage 50 [] "hi" false c6Exec c6Feed).appendedMsgs.getLast? = some asst ∧
      asst.role = MessageRole.assistant ∧
      ∀ m ∈ (streamMessage 50 [] "hi" false c6Exec c6Feed).appendedMsgs,
        m.role = MessageRole.tool →
          ∃ tid, m.tool_call_id = some tid ∧
            ((asst.tool_calls.getD []).map ToolCallRec.id).count tid = 1) :=
  ⟨(tool_correlation_same_turn 50 [] "hi" false c6Behavior
      { content := "", tool_calls := [⟨"t1", "f", []⟩] } "done" c6Exec c6Feed).1
      rfl (by decide) rfl (by decide),
   (tool_correlation_same_turn 50 [] "hi" false c6Behavior
      { content := "", tool_calls := [⟨"t1", "f", []⟩] } "done" c6Exec c6Feed).2⟩
